import Mathlib

/-!
Verification of the GCP Data Catalog search proxy
(`search_service/proxy/gcp_data_catalog.py`).

The definitions below are a shallow embedding of the Python source:
Python strings become `String`, lists become `List`, dictionaries become
association lists (insertion-ordered, as Python dicts are), and code that
can raise an exception (`IndexError`, `UnboundLocalError`,
`NotImplementedError`) returns `Option`, with `none` standing for the
raised exception.  The remote Data Catalog client is an external
collaborator and is passed in as a function argument where needed.
-/

set_option autoImplicit false

universe u v

/-! ### Python string primitives

Faithful models of the Python `str` operations the proxy uses:
`str.split(sep)` (single-character separator, no maxsplit),
`str.strip(chars)` (removes any character of the set from both ends),
`str.replace(old, '')` (removes all non-overlapping occurrences, left to
right), and list indexing `l[k]` / `l[-k]` which raises `IndexError` when
out of range. -/

/-- Model of Python `str.split(sep)` on the character list, for a
single-character separator: splits at every occurrence, keeping empty
pieces, and always returns at least one piece. -/
def splitOnChar (c : Char) : List Char → List (List Char)
  | [] => [[]]
  | x :: xs =>
    if x = c then [] :: splitOnChar c xs
    else
      match splitOnChar c xs with
      | [] => [[x]]
      | h :: t => (x :: h) :: t

/-- Python `s.split(sep)` for a one-character separator, on `String`. -/
def pySplit (sep : Char) (s : String) : List String :=
  (splitOnChar sep s.data).map String.mk

/-- Python `s.strip(chars)`: removes every leading and trailing character
that belongs to the character SET `chars` (not the literal substring). -/
def stripChars (s : String) (chars : String) : String :=
  String.mk (((s.data.dropWhile (fun c => chars.data.contains c)).reverse.dropWhile
      (fun c => chars.data.contains c)).reverse)

/-- Does `pat` occur at the head of `l`? (helper for `replaceDrop`). -/
def listStarts : List Char → List Char → Bool
  | [], _ => true
  | _ :: _, [] => false
  | p :: ps, x :: xs => p = x && listStarts ps xs

/-- Python `s.replace(old, '')`: drops every non-overlapping occurrence of
`old`, scanning left to right; replacing the empty string by the empty
string leaves `s` unchanged. -/
def replaceDrop (pat : List Char) : List Char → List Char
  | [] => []
  | x :: xs =>
    if h : pat ≠ [] ∧ listStarts pat (x :: xs) = true then
      replaceDrop pat ((x :: xs).drop pat.length)
    else
      x :: replaceDrop pat xs
termination_by l => l.length
decreasing_by
  · have hpos : 0 < pat.length := List.length_pos.mpr h.1
    simp only [List.length_drop, List.length_cons]
    omega
  · simp

/-- Python `l[n]` for `n ≥ 0`: `none` models the raised `IndexError`. -/
def pyIdx {α : Type u} (l : List α) (n : Nat) : Option α :=
  l.get? n

/-- Python `l[-k]` for `k ≥ 1`: `none` models the raised `IndexError`. -/
def pyIdxNeg {α : Type u} (l : List α) (k : Nat) : Option α :=
  if k ≤ l.length then l.get? (l.length - k) else none

/-- Python `s.split(sep)[0]`: the first piece of a split (a split result is
never empty, so the `""` branch is unreachable). -/
def pyFirstToken (sep : Char) (s : String) : String :=
  match pySplit sep s with
  | [] => ""
  | h :: _ => h

/-! ### Filter values

A value stored in the proxy's `filters` dict is a Python string, a Python
list of strings, or `None` (the default `entry_type`). -/

/-- A value of the `filters` dictionary in `_basic_search`. -/
inductive FilterVal : Type
  | str (s : String)
  | list (xs : List String)
  | null
deriving DecidableEq, Repr

/-- Python truthiness of a filter value (`if values:`): a string is truthy
iff non-empty, a list iff non-empty, `None` is falsy. -/
def FilterVal.truthy : FilterVal → Bool
  | FilterVal.str s => !s.isEmpty
  | FilterVal.list xs => !xs.isEmpty
  | FilterVal.null => false

/-! ### Query building (`_basic_search`, lines 138–170) -/

/-- `separators = {'type': '=', 'system': '='}; separators.get(field, ':')`. -/
def sepFor (field : String) : String :=
  if field = "type" then "=" else if field = "system" then "=" else ":"

/-- The label-filter parsing inlined at lines 150–158 of `_basic_search`
(the spec's "Label Filter Parser"): split the raw value on `':'`; one
piece gives `("*", piece)`, two pieces give `(first, second)`, any other
count is invalid (`none`). -/
def parseLabel (raw : String) : Option (String × String) :=
  match pySplit ':' raw with
  | [v] => some ("*", v)
  | [a, b] => some (a, b)
  | _ => none

/-- The filter loop of `_basic_search` (lines 145–170), building the query
string from the initial term and the `filters` dict (an insertion-ordered
association list).  Note the `break` at line 158: an invalid label filter
stops the whole loop, so the remaining filters are never appended. -/
def buildQuery : String → List (String × FilterVal) → String
  | q, [] => q
  | q, (field, values) :: rest =>
    if field = "label" then
      match values with
      | FilterVal.str s =>
        match parseLabel s with
        | some (labelName, labelValue) =>
          buildQuery (q ++ " AND " ++ field ++ "." ++ labelName ++ sepFor field ++ labelValue) rest
        | none => q
      | _ => buildQuery q rest
    else
      match values with
      | FilterVal.str s => buildQuery (q ++ " AND " ++ field ++ sepFor field ++ s) rest
      | FilterVal.list xs =>
        let inner := xs.foldl (fun acc v => acc ++ field ++ sepFor field ++ v ++ " OR ") ""
        if inner = "" then buildQuery q rest
        else buildQuery (q ++ " AND (" ++ stripChars inner " OR " ++ ")") rest
      | FilterVal.null => buildQuery q rest

/-- `filters['type'] = entry_type`: the `entry_type` parameter (default
`None`) as a filter value. -/
def typeFilterVal : Option String → FilterVal
  | some s => FilterVal.str s
  | none => FilterVal.null

/-- The full query built by `_basic_search`: the additional filters in
insertion order, then the `type` entry appended last (line 136). -/
def basicSearchQuery (queryTerm : String) (entryType : Option String)
    (addFilters : List (String × FilterVal)) : String :=
  buildQuery queryTerm (addFilters ++ [("type", typeFilterVal entryType)])

/-! ### Data model

The result records (`search_service/models`), treated by the spec as plain
data records.  Only the fields the proxy assigns are modelled. -/

/-- A system declared on a raw entry: the GCP `integrated_system` field is a
numeric enum, `user_specified_system` is a string.  `entry.user_specified_system
or entry.integrated_system` resolves to one of the two. -/
inductive SysVal : Type
  | intVal (n : Int)
  | strVal (s : String)
deriving DecidableEq, Repr

/-- A raw catalog entry as used by `_process_table_resource`:
`linked_resource` and `relative_resource_name` are path-like strings,
`user_specified_system` a (possibly empty) string and `integrated_system`
a numeric enum value. -/
structure RawEntry : Type where
  linked_resource : String
  relative_resource_name : String
  user_specified_system : String
  integrated_system : Int
deriving DecidableEq, Repr

/-- `entry.user_specified_system or entry.integrated_system` (line 80):
Python `or` yields the left operand when it is truthy (a non-empty
string), else the right one (the numeric enum). -/
def resolvedSystem (e : RawEntry) : SysVal :=
  if e.user_specified_system = "" then SysVal.intVal e.integrated_system
  else SysVal.strVal e.user_specified_system

/-- The `Table` result record, with the fields `_process_table_resource`
assigns. -/
structure Table : Type where
  database : String
  cluster : String
  schema : String
  name : String
  tags : List String
  badges : List String
  last_updated_timestamp : Option Int
  column_names : List String
  key : String
deriving DecidableEq, Repr

/-- The `Dashboard` result record, with the fields
`_process_dashboard_resource` assigns. -/
structure Dashboard : Type where
  cluster : String
  group_name : Option String
  group_url : String
  url : String
  product : SysVal
  name : String
  last_successful_run_timestamp : Int
  uri : String
deriving DecidableEq, Repr

/-- One normalized result entry (the spec's `NormalizedResult` variants
this backend produces). -/
inductive NormalizedResult : Type
  | table (t : Table)
  | dashboard (d : Dashboard)
deriving DecidableEq, Repr

/-- The typed result containers the facade constructs
(`SearchTableResult`, `SearchDashboardResult`, `SearchUserResult`). -/
inductive ResultContainer : Type
  | searchTableResult (total_results : Int) (results : List NormalizedResult)
  | searchDashboardResult (total_results : Int) (results : List NormalizedResult)
  | searchUserResult (total_results : Int) (results : List NormalizedResult)
deriving DecidableEq, Repr

/-! ### Entry normalization (`_process_table_resource`, lines 74–112) -/

/-- The `database`/`schema` assignments of `_process_table_resource`
(lines 80–88), for a given `name`.  On the integer path (`isinstance(
_database, int)`), `schema` is the third-from-last linked-resource
segment and `database` is assigned ONLY when the integer equals `1`
(the sentinel for `'bigquery'`); any other integer leaves `database`
unbound, so constructing the `Table` raises `UnboundLocalError` (`none`).
On the string path, `database` is that string and `schema` is the last
segment of the structured name with the table name removed and `'_'`
characters stripped from both ends. -/
def tableDbSchema (e : RawEntry) (name : String) : Option (String × String) :=
  match resolvedSystem e with
  | SysVal.intVal n =>
    (pyIdxNeg (pySplit '/' e.linked_resource) 3).bind
      (fun schema => if n = 1 then some ("bigquery", schema) else none)
  | SysVal.strVal s =>
    (pyIdxNeg (pySplit '/' e.relative_resource_name) 1).map
      (fun lastRel => (s, stripChars (String.mk (replaceDrop name.data lastRel.data)) "_"))

/-- `_process_table_resource` (lines 74–112).  `name` is the last
linked-resource segment, `database`/`schema` come from `tableDbSchema`,
`cluster` joins structured-name segments 1 and 3 with `"__"`, tags and
badges are left empty, and the key is the structured resource name.
`none` models a raised exception (`IndexError` from an out-of-range path
index, or the `UnboundLocalError` for an integer system other than 1). -/
def processTableResource (e : RawEntry) : Option Table :=
  (pyIdxNeg (pySplit '/' e.linked_resource) 1).bind (fun name =>
    (tableDbSchema e name).bind (fun ds =>
      (pyIdx (pySplit '/' e.relative_resource_name) 1).bind (fun c1 =>
        (pyIdx (pySplit '/' e.relative_resource_name) 3).map (fun c3 =>
          { database := ds.1
            cluster := c1 ++ "__" ++ c3
            schema := ds.2
            name := name
            tags := []
            badges := []
            last_updated_timestamp := none
            column_names := []
            key := e.relative_resource_name }))))

/-- `_process_resource` (lines 63–71): dispatch on the entry type string.
The dashboard normalizer performs remote calls (`get_entry`, `list_tags`),
so it is passed in as the external collaborator `dashProc`.  Any other
entry type raises `NotImplementedError` (`none`). -/
def processResource (dashProc : RawEntry → Option Dashboard)
    (entryType : Option String) (e : RawEntry) : Option NormalizedResult :=
  match entryType with
  | some "table" => (processTableResource e).map NormalizedResult.table
  | some "workbook" => (dashProc e).map NormalizedResult.dashboard
  | _ => none

/-! ### Pagination (`_basic_search`, lines 172–194) -/

/-- The inner `for element in page` processing (lines 182–188) on the
selected page: normalize each element in order; a `none` from `process`
is a raised exception aborting the whole search call. -/
def processAll {α : Type u} {β : Type v} (process : α → Option β) :
    List α → Option (List β)
  | [] => some []
  | x :: xs => do
    let y ← process x
    let ys ← processAll process xs
    pure (y :: ys)

/-- The page loop of `_basic_search` (lines 177–190), started at position
`pos`: returns the running total (`page_size` added per page), the entries
collected from the page whose position equals `pageIndex` (each processed
by `process`), and the `current_page_count` left by the last iterated page
(`none` when no page was iterated, i.e. the variable stays unbound). -/
def runPages {α : Type u} {β : Type v} (process : α → Option β) (pageSize : Int)
    (pageIndex : Nat) : Nat → List (List α) → Option (Int × List β × Option Nat)
  | _, [] => some (0, [], none)
  | pos, page :: rest => do
    let pageEntries ← if pos = pageIndex then processAll process page else pure []
    let (t, es, lc) ← runPages process pageSize pageIndex (pos + 1) rest
    pure (pageSize + t, pageEntries ++ es, some (lc.getD page.length))

/-- The paged-search core of `_basic_search` (lines 172–194) applied to the
stream of `pages` the remote call returned: iterate all pages, then
correct the total by `page_size - current_page_count`.  When the stream
has zero pages, `current_page_count` was never assigned and line 192
raises `UnboundLocalError` (`none`). -/
def basicSearch {α : Type u} {β : Type v} (process : α → Option β) (pageSize : Nat)
    (pageIndex : Nat) (pages : List (List α)) : Option (Int × List β) := do
  let (t, es, lc) ← runPages process (pageSize : Int) pageIndex 0 pages
  match lc with
  | none => none
  | some c => pure (t - ((pageSize : Int) - (c : Int)), es)

/-- `_basic_search` in full: build the query from the term, the additional
filters and the appended `type` filter, hand it to the remote paged search
(the collaborator `remote`), and run the page loop with the per-kind
normalizer. -/
def basicSearchFull (remote : String → List (List RawEntry))
    (dashProc : RawEntry → Option Dashboard) (pageSize : Nat) (queryTerm : String)
    (pageIndex : Nat) (entryType : Option String)
    (addFilters : List (String × FilterVal)) : Option (Int × List NormalizedResult) :=
  basicSearch (processResource dashProc entryType) pageSize pageIndex
    (remote (basicSearchQuery queryTerm entryType addFilters))

/-! ### Search facade (lines 196–248) -/

/-- `fetch_table_search_results` (lines 196–200): table search, wrapped in
`SearchTableResult`. -/
def fetchTableSearchResults (remote : String → List (List RawEntry))
    (dashProc : RawEntry → Option Dashboard) (pageSize : Nat) (queryTerm : String)
    (pageIndex : Nat) : Option ResultContainer :=
  (basicSearchFull remote dashProc pageSize queryTerm pageIndex (some "table") []).map
    (fun r => ResultContainer.searchTableResult r.1 r.2)

/-- `fetch_user_search_results` (lines 202–205): user search; note that
line 205 constructs `SearchTableResult`, not `SearchUserResult`, despite
the annotated return type. -/
def fetchUserSearchResults (remote : String → List (List RawEntry))
    (dashProc : RawEntry → Option Dashboard) (pageSize : Nat) (queryTerm : String)
    (pageIndex : Nat) : Option ResultContainer :=
  (basicSearchFull remote dashProc pageSize queryTerm pageIndex (some "user") []).map
    (fun r => ResultContainer.searchTableResult r.1 r.2)

/-- `fetch_dashboard_search_results` (lines 244–248): workbook search,
wrapped in `SearchDashboardResult`. -/
def fetchDashboardSearchResults (remote : String → List (List RawEntry))
    (dashProc : RawEntry → Option Dashboard) (pageSize : Nat) (queryTerm : String)
    (pageIndex : Nat) : Option ResultContainer :=
  (basicSearchFull remote dashProc pageSize queryTerm pageIndex (some "workbook") []).map
    (fun r => ResultContainer.searchDashboardResult r.1 r.2)

/-- The `filter_specs` table of `fetch_search_results_with_filter`
(lines 224–231): request filter name → backend field name. -/
def filterSpecs : List (String × String) :=
  [("table", "name"), ("description", "description"), ("column", "column"),
   ("tag", "tag"), ("database", "system"), ("badge", "label")]

/-- The filter-translation loop of `fetch_search_results_with_filter`
(lines 233–238) over a remaining spec list: look each request filter up
(default `None`), keep it under the backend name iff truthy. -/
def translateGo (req : List (String × FilterVal)) :
    List (String × String) → List (String × FilterVal)
  | [] => []
  | (sf, gf) :: rest =>
    let v := (req.lookup sf).getD FilterVal.null
    if v.truthy then (gf, v) :: translateGo req rest else translateGo req rest

/-- The `filters` dict built by `fetch_search_results_with_filter` from the
request's filters. -/
def translateFilters (req : List (String × FilterVal)) : List (String × FilterVal) :=
  translateGo req filterSpecs

/-- The query that `fetch_search_results_with_filter` sends to the backend:
entry type is `index.split('_')[0]`, filters are the translated ones. -/
def filteredSearchQuery (queryTerm : String) (req : List (String × FilterVal))
    (index : String) : String :=
  basicSearchQuery queryTerm (some (pyFirstToken '_' index)) (translateFilters req)

/-- `fetch_search_results_with_filter` (lines 216–242): translate the
request filters, run `_basic_search` with the entry type derived from the
index identifier, and wrap in `SearchTableResult` (line 242). -/
def fetchSearchResultsWithFilter (remote : String → List (List RawEntry))
    (dashProc : RawEntry → Option Dashboard) (pageSize : Nat) (queryTerm : String)
    (req : List (String × FilterVal)) (pageIndex : Nat) (index : String) :
    Option ResultContainer :=
  (basicSearchFull remote dashProc pageSize queryTerm pageIndex
      (some (pyFirstToken '_' index)) (translateFilters req)).map
    (fun r => ResultContainer.searchTableResult r.1 r.2)

/-! ### Spec-side helper definitions

These restate formulas from the specification's own words, to be compared
with the embedded code. -/

/-- The query shape the spec claims for all-scalar non-label filter maps:
`term` followed by `" AND field<op>value"` per field in insertion order. -/
def scalarQuerySpec (term : String) (fs : List (String × String)) : String :=
  fs.foldl (fun q p => q ++ " AND " ++ p.1 ++ sepFor p.1 ++ p.2) term

/-- The last element of a list, if any (used to state the corrected
total-count formula: `s_N` is the size of the last page). -/
def lastOf {α : Type u} : List α → Option α
  | [] => none
  | [x] => some x
  | _ :: x :: xs => lastOf (x :: xs)

/-- The elements the page loop collects: the contents of the page whose
0-based position (counting from `pos`) equals `pageIndex`, in order. -/
def selectPage {α : Type u} (pageIndex : Nat) : Nat → List (List α) → List α
  | _, [] => []
  | pos, page :: rest =>
    (if pos = pageIndex then page else []) ++ selectPage pageIndex (pos + 1) rest

/-- The `current_page_count` value after the loop, mirroring the
recursion of `runPages`: the length of the last page, if any. -/
def lastLenOf {α : Type u} : List (List α) → Option Nat
  | [] => none
  | page :: rest => some ((lastLenOf rest).getD page.length)

/-! ### Unfolding lemmas for `buildQuery` -/

theorem buildQuery_nil (q : String) : buildQuery q [] = q := rfl

theorem buildQuery_cons_str (q f s : String) (rest : List (String × FilterVal))
    (h : f ≠ "label") :
    buildQuery q ((f, FilterVal.str s) :: rest) =
      buildQuery (q ++ " AND " ++ f ++ sepFor f ++ s) rest := by
  simp [buildQuery, h]

/-! ### Claim theorems -/

/-- C9: for every search call whose remote result stream contains zero
pages, `_basic_search` raises an exception (the final total-count
correction at line 192 reads `current_page_count`, which is assigned only
inside the page loop), rather than returning an empty result page
`(0, [])`: the embedded executor returns `none`. -/
theorem zero_pages_raises_C9 : ∀ {α : Type u} {β : Type v} (process : α → Option β)
    (pageSize pageIndex : Nat), basicSearch process pageSize pageIndex [] = none := by
  intro α β process pageSize pageIndex
  rfl

/-- C2 (failing input): a label filter whose value splits into three
tokens does not merely drop that one field — the `break` at line 158
leaves the filter loop, so the `type` entry-kind constraint (appended
after the user filters) is dropped too: with the malformed label the query
is bare `"q"`, while without the label filter it is `"q AND type=table"`. -/
theorem label_break_drops_filters_C2 :
    basicSearchQuery "q" (some "table") [("label", FilterVal.str "a:b:c")] = "q" ∧
    basicSearchQuery "q" (some "table") [] = "q AND type=table" := by
  exact ⟨by decide, by decide⟩

/-- C3 (failing input): `_query.strip(" OR ")` strips the CHARACTER SET
`{' ', 'O', 'R'}` from both ends, not the literal `" OR "` suffix: for the
single-element list filter `tag=["FOO"]` the built query is
`"q AND (tag:F)"`, corrupting the last disjunct (`"tag:FOO"` lost its
trailing `"OO"`). -/
theorem strip_or_corrupts_disjunct_C3 :
    buildQuery "q" [("tag", FilterVal.list ["FOO"])] = "q AND (tag:F)" ∧
    "q AND (tag:F)" ≠ "q AND (tag:FOO)" := by
  exact ⟨by decide, by decide⟩

/-- C4 (failing input): `fetch_user_search_results` (line 205) constructs
`SearchTableResult`, not the user-typed container its own annotation
(`-> SearchUserResult`) declares: on a successful call it returns a
table-typed container.  Table and dashboard search do return their
matching containers. -/
theorem user_search_returns_table_container_C4 :
    fetchUserSearchResults (fun _ => [[]]) (fun _ => none) 10 "q" 0 =
      some (ResultContainer.searchTableResult 0 []) ∧
    fetchTableSearchResults (fun _ => [[]]) (fun _ => none) 10 "q" 0 =
      some (ResultContainer.searchTableResult 0 []) ∧
    fetchDashboardSearchResults (fun _ => [[]]) (fun _ => none) 10 "q" 0 =
      some (ResultContainer.searchDashboardResult 0 []) := by
  exact ⟨by decide, by decide, by decide⟩

/-- C5: for every free-text term and every filter map whose values are all
scalar strings on non-label fields, the built query equals the term
followed, for each field in insertion order, by `" AND field<op>value"`,
where the operator is `"="` exactly for the fields `"type"` and
`"system"` and `":"` for every other field; the operator function takes
only the field name, so it can never depend on the value. -/
theorem scalar_query_C5 :
    (∀ (term : String) (fs : List (String × String)), (∀ p ∈ fs, p.1 ≠ "label") →
      buildQuery term (fs.map (fun p => (p.1, FilterVal.str p.2))) = scalarQuerySpec term fs) ∧
    sepFor "type" = "=" ∧ sepFor "system" = "=" ∧
    (∀ f : String, f ≠ "type" → f ≠ "system" → sepFor f = ":") := by
  refine ⟨?_, rfl, rfl, ?_⟩
  · intro term fs
    induction fs generalizing term with
    | nil => intro _; rfl
    | cons p rest ih =>
      intro h
      have hp : p.1 ≠ "label" := h p (List.mem_cons_self p rest)
      rw [List.map_cons, buildQuery_cons_str term p.1 p.2 _ hp]
      exact ih _ (fun q hq => h q (List.mem_cons_of_mem p hq))
  · intro f h1 h2
    simp [sepFor, h1, h2]

/-- C5 witness: the theorem applied to the concrete term `"q"` and the
scalar non-label filter map `[type=table, name:foo]`. -/
theorem scalar_query_C5_witness :
    (∀ p ∈ [("type", "table"), ("name", "foo")], p.1 ≠ "label") ∧
    buildQuery "q" ([("type", "table"), ("name", "foo")].map
        (fun p => (p.1, FilterVal.str p.2))) =
      scalarQuerySpec "q" [("type", "table"), ("name", "foo")] :=
  ⟨by decide, scalar_query_C5.1 "q" [("type", "table"), ("name", "foo")] (by decide)⟩

/-! ### Lemmas on `splitOnChar` (for the label parser claim) -/

theorem splitOnChar_ne_nil (c : Char) (l : List Char) : splitOnChar c l ≠ [] := by
  cases l with
  | nil => simp [splitOnChar]
  | cons x xs =>
    unfold splitOnChar
    by_cases h : x = c
    · simp [h]
    · rw [if_neg h]
      cases hsp : splitOnChar c xs <;> simp

theorem splitOnChar_count_zero {c : Char} {l : List Char} (h : l.count c = 0) :
    splitOnChar c l = [l] := by
  induction l with
  | nil => rfl
  | cons x xs ih =>
    rw [List.count_cons] at h
    have hx : ¬ x = c := by
      intro hx
      simp [hx] at h
    have hxs : xs.count c = 0 := by
      by_cases hxc : c = x <;> simp [hxc] at h <;> omega
    unfold splitOnChar
    rw [if_neg hx, ih hxs]

theorem splitOnChar_append {c : Char} {l1 : List Char} (h : l1.count c = 0)
    (l2 : List Char) : splitOnChar c (l1 ++ c :: l2) = l1 :: splitOnChar c l2 := by
  induction l1 with
  | nil => simp [splitOnChar]
  | cons x xs ih =>
    rw [List.count_cons] at h
    have hx : ¬ x = c := by
      intro hx
      simp [hx] at h
    have hxs : xs.count c = 0 := by
      by_cases hxc : c = x <;> simp [hxc] at h <;> omega
    have hrec : splitOnChar c (xs ++ c :: l2) = xs :: splitOnChar c l2 := ih hxs
    rw [List.cons_append]
    show (if x = c then [] :: splitOnChar c (xs ++ c :: l2)
          else match splitOnChar c (xs ++ c :: l2) with
               | [] => [[x]]
               | h :: t => (x :: h) :: t) = (x :: xs) :: splitOnChar c l2
    rw [if_neg hx, hrec]

theorem splitOnChar_length (c : Char) (l : List Char) :
    (splitOnChar c l).length = l.count c + 1 := by
  induction l with
  | nil => simp [splitOnChar]
  | cons x xs ih =>
    unfold splitOnChar
    by_cases h : x = c
    · subst h
      simp [List.count_cons, ih]
    · rw [if_neg h]
      cases hsp : splitOnChar c xs with
      | nil => exact absurd hsp (splitOnChar_ne_nil c xs)
      | cons hh tt =>
        rw [hsp] at ih
        simp only [List.length_cons] at ih ⊢
        rw [List.count_cons]
        simp [h, Ne.symm h, ih]

theorem string_mk_data (s : String) : String.mk s.data = s := rfl

/-- C6: label parsing splits the raw value on the `':'` separator: a value
with zero separators yields `("*", raw)`, a value with exactly one
separator yields the pair of the two tokens, and a value with two or more
separators yields no pair; in particular `parseLabel "x" = ("*","x")`,
`parseLabel "a:b" = ("a","b")` and `parseLabel "a:b:c" = none`. -/
theorem parse_label_C6 :
    (∀ raw : String, raw.data.count ':' = 0 → parseLabel raw = some ("*", raw)) ∧
    (∀ a b : String, a.data.count ':' = 0 → b.data.count ':' = 0 →
      parseLabel (a ++ ":" ++ b) = some (a, b)) ∧
    (∀ raw : String, 2 ≤ raw.data.count ':' → parseLabel raw = none) ∧
    (parseLabel "x" = some ("*", "x") ∧ parseLabel "a:b" = some ("a", "b") ∧
      parseLabel "a:b:c" = none) := by
  refine ⟨?_, ?_, ?_, by decide, by decide, by decide⟩
  · intro raw h
    unfold parseLabel pySplit
    rw [splitOnChar_count_zero h]
    simp [string_mk_data]
  · intro a b ha hb
    unfold parseLabel pySplit
    have hdata : (a ++ ":" ++ b).data = a.data ++ ':' :: b.data := by
      show (a.data ++ [':']) ++ b.data = a.data ++ ':' :: b.data
      simp
    rw [hdata, splitOnChar_append ha, splitOnChar_count_zero hb]
    simp [string_mk_data]
  · intro raw h
    have hlen : 3 ≤ (splitOnChar ':' raw.data).length := by
      rw [splitOnChar_length]
      omega
    unfold parseLabel pySplit
    cases h0 : splitOnChar ':' raw.data with
    | nil => simp [h0] at hlen
    | cons p1 t1 =>
      cases t1 with
      | nil => simp [h0] at hlen
      | cons p2 t2 =>
        cases t2 with
        | nil => simp [h0] at hlen
        | cons p3 t3 => simp

/-- C6 witness: the three quantified parts of the theorem applied at the
claim's own concrete inputs. -/
theorem parse_label_C6_witness :
    parseLabel "x" = some ("*", "x") ∧
    parseLabel ("a" ++ ":" ++ "b") = some ("a", "b") ∧
    parseLabel "a:b:c" = none :=
  ⟨parse_label_C6.1 "x" (by decide),
   parse_label_C6.2.1 "a" "b" (by decide) (by decide),
   parse_label_C6.2.2.1 "a:b:c" (by decide)⟩

/-! ### Lemmas on filter translation -/

theorem mem_translateGo {req : List (String × FilterVal)} {specs : List (String × String)}
    {p : String × FilterVal} (h : p ∈ translateGo req specs) :
    p.2.truthy = true ∧ ∃ sf, (sf, p.1) ∈ specs ∧ req.lookup sf = some p.2 := by
  induction specs with
  | nil => simp [translateGo] at h
  | cons sp rest ih =>
    obtain ⟨sf, gf⟩ := sp
    rw [translateGo] at h
    by_cases ht : ((req.lookup sf).getD FilterVal.null).truthy = true
    · rw [if_pos ht] at h
      rcases List.mem_cons.mp h with h1 | h2
      · refine ⟨?_, sf, ?_, ?_⟩
        · rw [h1]
          exact ht
        · rw [h1]
          exact List.mem_cons_self _ _
        · cases hl : req.lookup sf with
          | none =>
            rw [hl] at ht
            simp [FilterVal.truthy] at ht
          | some w =>
            rw [hl] at h1
            simp only [Option.getD_some] at h1
            rw [h1]
      · obtain ⟨ht2, sf', hmem, hlk⟩ := ih h2
        exact ⟨ht2, sf', List.mem_cons_of_mem _ hmem, hlk⟩
    · rw [if_neg ht] at h
      obtain ⟨ht2, sf', hmem, hlk⟩ := ih h
      exact ⟨ht2, sf', List.mem_cons_of_mem _ hmem, hlk⟩

/-- C7: filtered search forwards only the filters present and non-empty in
the request, translated through the fixed table `filter_specs`
(in particular `database → system`); for the request
`{filters: {"database": "bq"}}` the backend filter dict is exactly
`{system: "bq"}` and the built query is the term followed by the
`system=bq` constraint and the entry-kind `type=` constraint derived from
the index identifier — nothing else. -/
theorem filtered_search_C7 :
    (∀ (req : List (String × FilterVal)) (p : String × FilterVal),
      p ∈ translateFilters req → p.2.truthy = true ∧
        ∃ sf, (sf, p.1) ∈ filterSpecs ∧ req.lookup sf = some p.2) ∧
    translateFilters [("database", FilterVal.str "bq")] =
      [("system", FilterVal.str "bq")] ∧
    (∀ (term index : String),
      filteredSearchQuery term [("database", FilterVal.str "bq")] index =
        term ++ " AND system=bq AND type=" ++ pyFirstToken '_' index) := by
  refine ⟨?_, by decide, ?_⟩
  · intro req p h
    exact mem_translateGo h
  · intro term index
    have htr : translateFilters [("database", FilterVal.str "bq")] =
        [("system", FilterVal.str "bq")] := by decide
    rw [filteredSearchQuery, htr, basicSearchQuery]
    show buildQuery term
        [("system", FilterVal.str "bq"),
         ("type", FilterVal.str (pyFirstToken '_' index))] = _
    rw [buildQuery_cons_str term "system" "bq" _ (by decide),
      buildQuery_cons_str _ "type" _ _ (by decide), buildQuery_nil]
    show term ++ " AND " ++ "system" ++ sepFor "system" ++ "bq" ++ " AND " ++ "type"
        ++ sepFor "type" ++ pyFirstToken '_' index = _
    rw [show sepFor "system" = "=" from rfl, show sepFor "type" = "=" from rfl]
    apply String.ext
    show term.data ++ " AND ".data ++ "system".data ++ "=".data ++ "bq".data
        ++ " AND ".data ++ "type".data ++ "=".data ++ (pyFirstToken '_' index).data =
      term.data ++ " AND system=bq AND type=".data ++ (pyFirstToken '_' index).data
    simp

/-- C7 witness: the quantified membership part of the theorem applied at
the claim's concrete request. -/
theorem filtered_search_C7_witness :
    ("system", FilterVal.str "bq").2.truthy = true ∧
    ∃ sf, (sf, ("system", FilterVal.str "bq").1) ∈ filterSpecs ∧
      [("database", FilterVal.str "bq")].lookup sf = some ("system", FilterVal.str "bq").2 :=
  filtered_search_C7.1 [("database", FilterVal.str "bq")] ("system", FilterVal.str "bq")
    (by decide)

/-! ### Lemmas on table normalization -/

theorem processTableResource_inv {e : RawEntry} {t : Table}
    (h : processTableResource e = some t) :
    ∃ name ds c1 c3,
      pyIdxNeg (pySplit '/' e.linked_resource) 1 = some name ∧
      tableDbSchema e name = some ds ∧
      pyIdx (pySplit '/' e.relative_resource_name) 1 = some c1 ∧
      pyIdx (pySplit '/' e.relative_resource_name) 3 = some c3 ∧
      t = { database := ds.1
            cluster := c1 ++ "__" ++ c3
            schema := ds.2
            name := name
            tags := []
            badges := []
            last_updated_timestamp := none
            column_names := []
            key := e.relative_resource_name } := by
  simp only [processTableResource, Option.bind_eq_some, Option.map_eq_some'] at h
  obtain ⟨name, hname, ds, hds, c1, hc1, c3, hc3, ht⟩ := h
  exact ⟨name, ds, c1, c3, hname, hds, hc1, hc3, ht.symm⟩

/-- C8: for a table entry with linked-resource path `"a/b/c/mytable"` and
declared system the numeric sentinel `1`, normalization (when it returns
a record at all — building `cluster` still needs structured-name segments
1 and 3) derives `database = "bigquery"`, `name = "mytable"` and
`schema = "b"` (the third-from-last linked segment); and for every table
entry whatsoever, a returned record has empty tags and badges. -/
theorem table_normalization_C8 :
    (∀ (rrn : String) (t : Table),
      processTableResource ⟨"a/b/c/mytable", rrn, "", 1⟩ = some t →
        t.database = "bigquery" ∧ t.name = "mytable" ∧ t.schema = "b" ∧
        t.tags = [] ∧ t.badges = []) ∧
    (∀ (e : RawEntry) (t : Table), processTableResource e = some t →
      t.tags = [] ∧ t.badges = []) := by
  constructor
  · intro rrn t h
    obtain ⟨name, ds, c1, c3, hname, hds, hc1, hc3, ht⟩ := processTableResource_inv h
    have hname' : name = "mytable" := by
      have hd : pyIdxNeg (pySplit '/' ("a/b/c/mytable" : String)) 1 = some "mytable" := by
        decide
      rw [hd] at hname
      exact (Option.some_inj.mp hname).symm
    subst hname'
    have hsys : resolvedSystem ⟨"a/b/c/mytable", rrn, "", 1⟩ = SysVal.intVal 1 := rfl
    have hds' : ds = ("bigquery", "b") := by
      rw [tableDbSchema, hsys] at hds
      have hd3 : pyIdxNeg (pySplit '/' ("a/b/c/mytable" : String)) 3 = some "b" := by
        decide
      simp only [hd3, Option.some_bind, if_pos rfl] at hds
      exact (Option.some_inj.mp hds).symm
    subst hds'
    rw [ht]
    exact ⟨rfl, rfl, rfl, rfl, rfl⟩
  · intro e t h
    obtain ⟨name, ds, c1, c3, _, _, _, _, ht⟩ := processTableResource_inv h
    rw [ht]
    exact ⟨rfl, rfl⟩

/-- C8 witness: the theorem applied to the concrete structured name
`"p/c/d/s"`, where normalization succeeds. -/
theorem table_normalization_C8_witness :
    processTableResource ⟨"a/b/c/mytable", "p/c/d/s", "", 1⟩ =
      some ⟨"bigquery", "c__s", "b", "mytable", [], [], none, [], "p/c/d/s"⟩ ∧
    ((⟨"bigquery", "c__s", "b", "mytable", [], [], none, [], "p/c/d/s"⟩ : Table).database
        = "bigquery" ∧
      (⟨"bigquery", "c__s", "b", "mytable", [], [], none, [], "p/c/d/s"⟩ : Table).name
        = "mytable" ∧
      (⟨"bigquery", "c__s", "b", "mytable", [], [], none, [], "p/c/d/s"⟩ : Table).schema
        = "b" ∧
      (⟨"bigquery", "c__s", "b", "mytable", [], [], none, [], "p/c/d/s"⟩ : Table).tags
        = [] ∧
      (⟨"bigquery", "c__s", "b", "mytable", [], [], none, [], "p/c/d/s"⟩ : Table).badges
        = []) :=
  ⟨by decide, table_normalization_C8.1 "p/c/d/s" _ (by decide)⟩

/-- C10: a table entry whose resolved system (user-specified, else
integrated) is an integer different from the sentinel `1` makes
normalization raise (`database` is never assigned on that path, so the
`Table(...)` construction raises `UnboundLocalError`): the embedded
normalizer returns `none`, and an integer-system entry can only normalize
successfully when that integer equals `1`. -/
theorem int_system_must_be_one_C10 :
    (∀ (e : RawEntry) (n : Int), resolvedSystem e = SysVal.intVal n → n ≠ 1 →
      processTableResource e = none) ∧
    (∀ (e : RawEntry) (n : Int) (t : Table), resolvedSystem e = SysVal.intVal n →
      processTableResource e = some t → n = 1) := by
  have key : ∀ (e : RawEntry) (n : Int), resolvedSystem e = SysVal.intVal n → n ≠ 1 →
      processTableResource e = none := by
    intro e n hsys hn
    have hds : ∀ name, tableDbSchema e name = none := by
      intro name
      rw [tableDbSchema, hsys]
      cases pyIdxNeg (pySplit '/' e.linked_resource) 3 with
      | none => rfl
      | some schema => simp [hn]
    rw [processTableResource]
    cases pyIdxNeg (pySplit '/' e.linked_resource) 1 with
    | none => rfl
    | some name => simp [hds name]
  refine ⟨key, ?_⟩
  intro e n t hsys h
  by_contra hn
  rw [key e n hsys hn] at h
  exact Option.noConfusion h

/-- C10 witness: the theorem applied to a concrete entry whose integrated
system is the integer `2`: normalization yields `none`. -/
theorem int_system_must_be_one_C10_witness :
    resolvedSystem ⟨"a/b/c/mytable", "p/c/d/s", "", 2⟩ = SysVal.intVal 2 ∧
    processTableResource ⟨"a/b/c/mytable", "p/c/d/s", "", 2⟩ = none :=
  ⟨by decide,
   int_system_must_be_one_C10.1 ⟨"a/b/c/mytable", "p/c/d/s", "", 2⟩ 2 (by decide) (by decide)⟩

/-! ### Lemmas on the page loop (for the pagination claim) -/

theorem processAll_pure_some {α : Type u} {β : Type v} (f : α → β) (l : List α) :
    processAll (fun a => some (f a)) l = some (l.map f) := by
  induction l with
  | nil => rfl
  | cons x xs ih => simp [processAll, ih]

theorem runPages_pure_eq {α : Type u} {β : Type v} (f : α → β) (ps : Int) (pi : Nat) :
    ∀ (pos : Nat) (pages : List (List α)),
      runPages (fun a => some (f a)) ps pi pos pages =
        some (ps * pages.length, (selectPage pi pos pages).map f, lastLenOf pages) := by
  intro pos pages
  induction pages generalizing pos with
  | nil => simp [runPages, selectPage, lastLenOf]
  | cons page rest ih =>
    have hsel : selectPage pi pos (page :: rest) =
        (if pos = pi then page else []) ++ selectPage pi (pos + 1) rest := rfl
    by_cases hp : pos = pi
    · simp only [runPages, if_pos hp, processAll_pure_some, ih, Option.bind_eq_bind,
        Option.some_bind, hsel, lastLenOf, Option.pure_def, Option.some.injEq, Prod.mk.injEq]
      refine ⟨?_, ?_, trivial⟩
      · push_cast [List.length_cons]
        ring
      · simp [List.map_append]
    · simp only [runPages, if_neg hp, processAll_pure_some, ih, Option.bind_eq_bind,
        Option.some_bind, hsel, lastLenOf, Option.pure_def, Option.some.injEq, Prod.mk.injEq]
      refine ⟨?_, ?_, trivial⟩
      · push_cast [List.length_cons]
        ring
      · simp [List.map_append]

theorem selectPage_out {α : Type u} (pi : Nat) :
    ∀ (pos : Nat) (pages : List (List α)), pi < pos → selectPage pi pos pages = [] := by
  intro pos pages
  induction pages generalizing pos with
  | nil => intro _; rfl
  | cons page rest ih =>
    intro hlt
    have hne : ¬ pos = pi := by omega
    show (if pos = pi then page else []) ++ selectPage pi (pos + 1) rest = []
    rw [if_neg hne, ih (pos + 1) (by omega), List.nil_append]

theorem selectPage_in {α : Type u} (pi : Nat) :
    ∀ (pos : Nat) (pages : List (List α)), pos ≤ pi → pi - pos < pages.length →
      selectPage pi pos pages = pages.getD (pi - pos) [] := by
  intro pos pages
  induction pages generalizing pos with
  | nil => intro _ h; simp at h
  | cons page rest ih =>
    intro hle hlt
    show (if pos = pi then page else []) ++ selectPage pi (pos + 1) rest = _
    by_cases hp : pos = pi
    · rw [if_pos hp, selectPage_out pi (pos + 1) rest (by omega)]
      have h0 : pi - pos = 0 := by omega
      rw [h0, List.append_nil]
      rfl
    · rw [if_neg hp, List.nil_append]
      have hle' : pos + 1 ≤ pi := by omega
      have hlt' : pi - (pos + 1) < rest.length := by
        simp only [List.length_cons] at hlt
        omega
      rw [ih (pos + 1) hle' hlt']
      have hsucc : pi - pos = (pi - (pos + 1)) + 1 := by omega
      rw [hsucc]
      rfl

theorem lastOf_cons_isSome {α : Type u} :
    ∀ (xs : List α) (x : α), ∃ y, lastOf (x :: xs) = some y := by
  intro xs
  induction xs with
  | nil => intro x; exact ⟨x, rfl⟩
  | cons z zs ih =>
    intro x
    obtain ⟨y, hy⟩ := ih z
    exact ⟨y, hy⟩

theorem lastLenOf_eq_lastOf {α : Type u} :
    ∀ pages : List (List α), lastLenOf pages = (lastOf pages).map List.length := by
  intro pages
  induction pages with
  | nil => rfl
  | cons page rest ih =>
    cases rest with
    | nil => rfl
    | cons r rs =>
      obtain ⟨y, hy⟩ := lastOf_cons_isSome rs r
      show some ((lastLenOf (r :: rs)).getD page.length) = (lastOf (r :: rs)).map List.length
      rw [ih, hy]
      rfl

/-- C1 counterexample: page size 10, three pages of one element each
(`s = [1,1,1]`), requested page index 2 (in range).  The executor returns
`total_count = 21` with one entry — but `21` differs from
`sum(s1..s_page_index) = 3` (and from any partial sum of `s`) by more
than the page size `10`, refuting the claimed bound. -/
theorem pagination_C1_cex :
    basicSearch (fun a : Nat => some a) 10 2 [[0], [0], [0]] = some (21, [0]) ∧
    ¬ (((21 : Int) - (1 + 1 + 1)).natAbs ≤ 10) := by
  exact ⟨by decide, by decide⟩

/-- C1 (amended): for a stream of `N` pages and `page_index` in range, the
entries list has the length of the requested page, and `total_count`
equals exactly `page_size * N - page_size + s_N` (the running total of
`page_size` per page, corrected by the fill of the LAST page) — it is not
in general within `page_size` of the partial sum of page sizes. -/
theorem pagination_C1_amended {α : Type u} {β : Type v} (f : α → β) (pageSize : Nat)
    (pages : List (List α)) (pageIndex : Nat) (h : pageIndex < pages.length) :
    ∃ total entries,
      basicSearch (fun a => some (f a)) pageSize pageIndex pages = some (total, entries) ∧
      entries.length = (pages.getD pageIndex []).length ∧
      total = (pageSize : Int) * pages.length - pageSize +
        ((lastOf pages).getD []).length := by
  have hrun := runPages_pure_eq f (pageSize : Int) pageIndex 0 pages
  obtain ⟨lastPage, hlast⟩ : ∃ y, lastOf pages = some y := by
    cases pages with
    | nil => simp at h
    | cons p rest => exact lastOf_cons_isSome rest p
  have hlc : lastLenOf pages = some lastPage.length := by
    rw [lastLenOf_eq_lastOf, hlast]
    rfl
  refine ⟨(pageSize : Int) * pages.length - ((pageSize : Int) - lastPage.length),
    (selectPage pageIndex 0 pages).map f, ?_, ?_, ?_⟩
  · rw [basicSearch, hrun, hlc]
    rfl
  · rw [List.length_map, selectPage_in pageIndex 0 pages (Nat.zero_le _) (by simpa using h),
      Nat.sub_zero]
  · rw [hlast]
    show (pageSize : Int) * pages.length - ((pageSize : Int) - lastPage.length) =
      (pageSize : Int) * pages.length - pageSize + (lastPage.length : Int)
    ring

/-- C1 witness: the amended theorem applied to page size 10, two pages
`[[1,2],[3]]` and page index 1. -/
theorem pagination_C1_amended_witness :
    (1 < ([[1, 2], [3]] : List (List Nat)).length) ∧
    ∃ total entries,
      basicSearch (fun a : Nat => some (id a)) 10 1 [[1, 2], [3]] = some (total, entries) ∧
      entries.length = (([[1, 2], [3]] : List (List Nat)).getD 1 []).length ∧
      total = (10 : Int) * ([[1, 2], [3]] : List (List Nat)).length - 10 +
        ((lastOf [[1, 2], [3]]).getD ([] : List Nat)).length :=
  ⟨by decide, pagination_C1_amended id 10 [[1, 2], [3]] 1 (by decide)⟩
